import Mathlib

/-!
Verification of the `scoped-event-log` package's `Log` class (src/Log.ts).

The TypeScript source is shallowly embedded: the static class state becomes the
`LogState` record, each static method becomes a pure function from the old state
to the new state together with its observable effects (console channel writes,
`callEventListeners` broadcasts, individual listener invocations, worker posts).
Listener callbacks are identified by an opaque numeric identity (reference
equality in JS). Wall-clock reads (`new Date()`) become explicit `now : Int`
(epoch milliseconds) parameters.
-/

namespace ScopedEventLog

/-- A log message: TS `string | string[]` (a single line or a list of lines). -/
inductive LogMessage where
  | str (s : String)
  | lines (l : List String)
deriving DecidableEq

/-- The four distinct JavaScript console channels used by `Log.print` and the
diagnostics (`console.debug` / `console.info` / `console.warn` / `console.error`). -/
inductive ConsoleChannel where
  | debug
  | info
  | warn
  | error
deriving DecidableEq

/-- `Log.LEVELS`: the ordered priority levels with their numeric ranks. -/
def LEVELS : List (String × Nat) :=
  [("DEBUG", 0), ("INFO", 1), ("WARN", 2), ("ERROR", 3), ("DISABLE", 4)]

/-- Rank lookup: `Log.LEVELS[level]`, `none` when the name is not a key
(TS yields `undefined`). -/
def levelRank (level : String) : Option Nat :=
  (LEVELS.find? (fun p => p.1 == level)).map Prod.snd

/-- The test guarding `Log.add` and the removal methods, as its negation: the source
rejects when `!Object.keys(Log.LEVELS).includes(level) || level === 'DISABLE'`,
so it proceeds exactly when the name is a known key other than `DISABLE`. -/
def isValidAddLevel (level : String) : Bool :=
  (levelRank level).isSome && !(level == "DISABLE")

/-- `LogTimestamp` delta: `Log.prevTimestamp ? date.getTime() - Log.prevTimestamp : null`.
JS truthiness makes both `null` and `0` produce `null`. -/
def mkDelta (prev : Option Int) (now : Int) : Option Int :=
  match prev with
  | some p => if p ≠ 0 then some (now - p) else none
  | none => none

/-- A `LogEvent` with its `LogTimestamp` flattened into `time` (epoch ms) and
`delta`. `extra` is kept opaque as an optional string. -/
structure LogEvent where
  level : Nat
  message : LogMessage
  scope : String
  extra : Option String
  time : Int
  delta : Option Int
deriving DecidableEq

/-- One entry of `Log.eventListeners`: levels listened to, the listener's
identity, the optional owner tag, and the one-shot flag. -/
structure Subscription where
  levels : List String
  listener : Nat
  owner : Option String
  single : Bool
deriving DecidableEq

/-- The static state of the `Log` class. -/
structure LogState where
  eventListeners : List Subscription
  events : List LogEvent
  prevTimestamp : Option Int
  printThreshold : Nat
  workers : List Nat
deriving DecidableEq

/-- The initial values of the static fields: no listeners, no events,
`_prevTimestamp = null`, `printThreshold = 1`, no workers. -/
def Log.initial : LogState :=
  { eventListeners := [], events := [], prevTimestamp := none,
    printThreshold := 1, workers := [] }

/-- `Log.callEventListeners(level, event)`: invokes, in order, every listener whose
`levels` contains `level`, removing one-shot listeners as it goes (the `splice`
plus `i--` loop). Returns the updated listener list and the invocations made. -/
def callEventListeners (subs : List Subscription) (level : String) (event : LogEvent) :
    List Subscription × List (Nat × String × LogEvent) :=
  match subs with
  | [] => ([], [])
  | sub :: rest =>
    if sub.levels.contains level then
      let r := callEventListeners rest level event
      (if sub.single then r.1 else sub :: r.1, (sub.listener, level, event) :: r.2)
    else
      let r := callEventListeners rest level event
      (sub :: r.1, r.2)

/-- `Log.print(logEvent)` projected to its observable channel routing: the
message text is formatted and then emitted on the console channel selected by
the event's numeric level (no channel for other ranks, which have no branch). -/
def Log.print (e : LogEvent) : List ConsoleChannel :=
  if e.level == 0 then [ConsoleChannel.debug]
  else if e.level == 1 then [ConsoleChannel.info]
  else if e.level == 2 then [ConsoleChannel.warn]
  else if e.level == 3 then [ConsoleChannel.error]
  else []

/-- Result of one `Log.add` call: the new state, the console channels written,
the `callEventListeners` broadcasts made, and the listener invocations. -/
structure AddResult where
  state : LogState
  console : List ConsoleChannel
  broadcasts : List (String × LogEvent)
  calls : List (Nat × String × LogEvent)
deriving DecidableEq

/-- `Log.add(level, message, scope, extra)` in the main-document context
(the worker-scope redirect branch is not taken): an invalid or `DISABLE` level
yields exactly one `console.warn` diagnostic and nothing else; otherwise the
event is constructed, printed when `rank >= printThreshold`, appended,
`_prevTimestamp` is updated, and listeners are notified. -/
def Log.add (level : String) (message : LogMessage) (scope : String)
    (extra : Option String) (now : Int) (s : LogState) : AddResult :=
  if isValidAddLevel level then
    let rank := (levelRank level).getD 0
    let ev : LogEvent :=
      { level := rank, message := message, scope := scope, extra := extra,
        time := now, delta := mkDelta s.prevTimestamp now }
    let console := if s.printThreshold ≤ rank then Log.print ev else []
    let r := callEventListeners s.eventListeners level ev
    { state := { s with events := s.events ++ [ev], prevTimestamp := some now,
                        eventListeners := r.1 },
      console := console, broadcasts := [(level, ev)], calls := r.2 }
  else
    { state := s, console := [ConsoleChannel.warn], broadcasts := [], calls := [] }

/-- The merge loop inside `Log.addEventListener` for an already-registered
callback: each given level is appended only when not already present. -/
def mergeLevels (levels : List String) : List String → List String
  | [] => levels
  | l :: rest =>
    if levels.contains l then mergeLevels levels rest
    else mergeLevels (levels ++ [l]) rest

/-- `Log.addEventListener(level, listener, owner?, singleEvent)`, with the level
argument already normalized to an array: the first subscription with the same
listener absorbs the new levels and the call returns; otherwise a new
subscription is pushed. -/
def Log.addEventListener (level : List String) (listener : Nat)
    (owner : Option String) (singleEvent : Bool) :
    List Subscription → List Subscription
  | [] => [{ owner := owner, levels := level, listener := listener, single := singleEvent }]
  | ext :: rest =>
    if ext.listener == listener then
      { ext with levels := mergeLevels ext.levels level } :: rest
    else
      ext :: Log.addEventListener level listener owner singleEvent rest

/-- The inner loop of `Log.removeEventListeners` over one subscription's levels
(the match of listener and owner has already been established): each level
contained in the given set is spliced out and counted. -/
def stripMatchingLevels (level : List String) : List String → List String × Nat
  | [] => ([], 0)
  | l :: rest =>
    if level.contains l then
      let r := stripMatchingLevels level rest
      (r.1, r.2 + 1)
    else
      let r := stripMatchingLevels level rest
      (l :: r.1, r.2)

/-- `Log.removeEventListeners(level, listener, owner?)`: when a subscription's
level set matches the given set exactly (same length, every element included)
and listener and owner match, the whole subscription is removed and counted
once; otherwise the matching levels are stripped one by one, each counted, and
the subscription is dropped when its level list becomes empty. Returns the
updated list and `rmCount`. -/
def Log.removeEventListeners (level : List String) (listener : Nat)
    (owner : Option String) : List Subscription → List Subscription × Nat
  | [] => ([], 0)
  | evt :: rest =>
    let ownerOk : Bool := owner.isNone || (evt.owner == owner)
    let r := Log.removeEventListeners level listener owner rest
    if evt.levels.length == level.length && evt.levels.all (fun l => level.contains l) then
      if evt.listener == listener && ownerOk then (r.1, r.2 + 1)
      else (evt :: r.1, r.2)
    else
      if evt.listener == listener && ownerOk then
        let sr := stripMatchingLevels level evt.levels
        if sr.1.isEmpty && !evt.levels.isEmpty then (r.1, r.2 + sr.2)
        else ({ evt with levels := sr.1 } :: r.1, r.2 + sr.2)
      else (evt :: r.1, r.2)

/-- `Log.clear()`: empties `Log.events` (leaving `_prevTimestamp` untouched),
then fires one synthetic `__clear` event per level DEBUG, INFO, WARN, ERROR
through `callEventListeners`. -/
def Log.clear (now : Int) (s : LogState) : LogState × List (String × LogEvent) :=
  let mk : Nat → LogEvent := fun r =>
    { level := r, message := LogMessage.str "__clear", scope := "Log",
      extra := none, time := now, delta := mkDelta s.prevTimestamp now }
  let c0 := callEventListeners s.eventListeners "DEBUG" (mk 0)
  let c1 := callEventListeners c0.1 "INFO" (mk 1)
  let c2 := callEventListeners c1.1 "WARN" (mk 2)
  let c3 := callEventListeners c2.1 "ERROR" (mk 3)
  ({ s with events := [], eventListeners := c3.1 },
   [("DEBUG", mk 0), ("INFO", mk 1), ("WARN", mk 2), ("ERROR", mk 3)])

/-- `Log.removeEventsAtLevel(level)`: rejects an invalid or `DISABLE` level with
one warn diagnostic; otherwise removes every event whose level equals the rank.
It fires no cleared notifications. -/
def Log.removeEventsAtLevel (level : String) (s : LogState) :
    LogState × List (String × LogEvent) × List ConsoleChannel :=
  if isValidAddLevel level then
    let r := (levelRank level).getD 0
    ({ s with events := s.events.filter (fun e => !(e.level == r)) }, [], [])
  else
    (s, [], [ConsoleChannel.warn])

/-- `Log.removeEventsBelowLevel(level)`: like `removeEventsAtLevel` but removes
events of strictly lower rank. It fires no cleared notifications. -/
def Log.removeEventsBelowLevel (level : String) (s : LogState) :
    LogState × List (String × LogEvent) × List ConsoleChannel :=
  if isValidAddLevel level then
    let r := (levelRank level).getD 0
    ({ s with events := s.events.filter (fun e => !(decide (e.level < r))) }, [], [])
  else
    (s, [], [ConsoleChannel.warn])

/-- `Log.removeScopeEvents(scope)`: removes every event of the scope. -/
def Log.removeScopeEvents (scope : String) (s : LogState) : LogState :=
  { s with events := s.events.filter (fun e => !(e.scope == scope)) }

/-- `Log.removeScopeEventsAtLevel(scope, level)`: after the removal it constructs
one `__clear` event at the level's rank and fires it through
`callEventListeners` for that level. -/
def Log.removeScopeEventsAtLevel (scope : String) (level : String) (now : Int)
    (s : LogState) : LogState × List (String × LogEvent) × List ConsoleChannel :=
  if isValidAddLevel level then
    let r := (levelRank level).getD 0
    let events2 := s.events.filter (fun e => !(e.scope == scope && e.level == r))
    let clearEvent : LogEvent :=
      { level := r, message := LogMessage.str "__clear", scope := "Log",
        extra := none, time := now, delta := mkDelta s.prevTimestamp now }
    let c := callEventListeners s.eventListeners level clearEvent
    ({ s with events := events2, eventListeners := c.1 }, [(level, clearEvent)], [])
  else
    (s, [], [ConsoleChannel.warn])

/-- The loop at the end of `Log.removeScopeEventsBelowLevel`: for each given
`(name, rank)` entry it constructs a `__clear` event at that rank and fires it
through `callEventListeners` for that name, threading the listener list and
collecting the broadcasts in order. -/
def clearFold (now : Int) (prev : Option Int) :
    List (String × Nat) → List Subscription →
    List Subscription × List (String × LogEvent)
  | [], subs => (subs, [])
  | p :: rest, subs =>
    let clearEvent : LogEvent :=
      { level := p.2, message := LogMessage.str "__clear", scope := "Log",
        extra := none, time := now, delta := mkDelta prev now }
    let c := callEventListeners subs p.1 clearEvent
    let r := clearFold now prev rest c.1
    (r.1, (p.1, clearEvent) :: r.2)

/-- `Log.removeScopeEventsBelowLevel(scope, level)`: after the removal it walks
`Object.entries(Log.LEVELS)` and, for every entry of strictly lower rank, fires
a `__clear` event through `callEventListeners` for that entry's name. -/
def Log.removeScopeEventsBelowLevel (scope : String) (level : String) (now : Int)
    (s : LogState) : LogState × List (String × LogEvent) × List ConsoleChannel :=
  if isValidAddLevel level then
    let r := (levelRank level).getD 0
    let events2 := s.events.filter (fun e => !(e.scope == scope && decide (e.level < r)))
    let below := LEVELS.filter (fun p => decide (p.2 < r))
    let f := clearFold now s.prevTimestamp below s.eventListeners
    ({ s with events := events2, eventListeners := f.1 }, f.2, [])
  else
    (s, [], [ConsoleChannel.warn])

/-- `Log.getAllEventsAtLevel(level)`: filters by the looked-up rank; an unknown
name yields `undefined` in the source and so matches nothing. -/
def Log.getAllEventsAtLevel (level : String) (s : LogState) : List LogEvent :=
  s.events.filter (fun e => levelRank level == some e.level)

/-- One element of the array built by `Log.exportToJson`: the plain object
`(level, message, scope, time)` extracted from an event. -/
structure PlainRecord where
  level : Nat
  message : LogMessage
  scope : String
  time : Int
deriving DecidableEq

/-- The per-event plain object of `Log.exportToJson`. -/
def toPlain (e : LogEvent) : PlainRecord :=
  { level := e.level, message := e.message, scope := e.scope, time := e.time }

/-- `Log.exportToJson(level?)` modelled up to JSON serialization: the list of
plain records that `JSON.parse` recovers from the produced string — the level
filter is applied through `getAllEventsAtLevel` when a level is given. -/
def Log.exportToJson (level : Option String) (s : LogState) : List PlainRecord :=
  (match level with
   | some l => Log.getAllEventsAtLevel l s
   | none => s.events).map toPlain

/-- A message posted to a worker handle by `setPrintThreshold`. -/
structure PostedMessage where
  target : Nat
  action : String
  level : String
deriving DecidableEq

/-- `Log.setPrintThreshold(level)`: a recognized key (including `DISABLE`) sets
the threshold to its rank and posts `action = log-set-print-threshold` to every
handle in `Log.workers`; otherwise one warn diagnostic and no change. -/
def Log.setPrintThreshold (level : String) (s : LogState) :
    LogState × List PostedMessage × List ConsoleChannel :=
  match levelRank level with
  | some r =>
    ({ s with printThreshold := r },
     s.workers.map (fun w => { target := w, action := "log-set-print-threshold", level := level }),
     [])
  | none => (s, [], [ConsoleChannel.warn])

/-- The observable surroundings of the `Log` class: its static state plus the
set of worker handles that have received a message handler. -/
structure LogWorld where
  log : LogState
  attachedHandlers : List Nat
deriving DecidableEq

/-- The initial world: initial static state, no handler attached anywhere. -/
def Log.initialWorld : LogWorld :=
  { log := Log.initial, attachedHandlers := [] }

/-- `Log.registerWorker(worker)`: attaches a message handler to the worker
handle. No static field of `Log` is modified — in particular nothing is added
to `Log.workers`. -/
def Log.registerWorker (worker : Nat) (w : LogWorld) : LogWorld :=
  { w with attachedHandlers := w.attachedHandlers ++ [worker] }

/-- A message received by the handler installed by `registerWorker`. -/
structure WorkerMessage where
  action : String
  level : Option String
  message : Option LogMessage
  scope : Option String
  extra : Option String
deriving DecidableEq

/-- What the installed handler does with one message. -/
inductive HandlerAction where
  | forwardToAdd
  | detach
  | ignore
deriving DecidableEq

/-- JS truthiness of an optional string: absent, `undefined` and the empty
string are falsy. -/
def truthyStr : Option String → Bool
  | none => false
  | some s => !(s == "")

/-- The dispatch of the message handler installed by `Log.registerWorker`. The
source condition is `data.action === 'log' && data.level && data.message,
data.scope` — a comma expression, whose value is the truthiness of `data.scope`
alone — so the first branch is taken exactly when `data.scope` is truthy, and
only otherwise is `data.action === 'terminate'` consulted. -/
def Log.messageHandler (data : WorkerMessage) : HandlerAction :=
  if truthyStr data.scope then HandlerAction.forwardToAdd
  else if data.action == "terminate" then HandlerAction.detach
  else HandlerAction.ignore

/-- The arguments of one `Log.add` call together with the clock value read while
constructing its `LogTimestamp`. -/
structure AddCall where
  level : String
  message : LogMessage
  scope : String
  extra : Option String
  time : Int
deriving DecidableEq

/-- A sequence of `Log.add` calls, threading the state. -/
def Log.runAdds : List AddCall → LogState → LogState
  | [], s => s
  | a :: rest, s =>
    Log.runAdds rest (Log.add a.level a.message a.scope a.extra a.time s).state

/-- Modelled from the spec: the provided `Log` source has no `maxEvents` member,
although the repository's test suite sets `Log.maxEvents = 5`; per the spec
(section 3 Event Store and section 4.3), `add` "appends to the sequence, evicts
oldest if `length > maxEvents`" — FIFO, oldest first, enforced at insertion,
unbounded when unset. -/
def evictOldest (maxEvents : Option Nat) (events : List LogEvent) : List LogEvent :=
  match maxEvents with
  | none => events
  | some m => if m < events.length then events.drop (events.length - m) else events

/-- Modelled from the spec: one `Log.add` call followed by the insert-time
eviction check of the `maxEvents` configuration. -/
def Log.addLimited (maxEvents : Option Nat) (a : AddCall) (s : LogState) : LogState :=
  let s2 := (Log.add a.level a.message a.scope a.extra a.time s).state
  { s2 with events := evictOldest maxEvents s2.events }

/-- A sequence of `Log.add` calls under a `maxEvents` bound. -/
def Log.runAddsLimited (maxEvents : Option Nat) : List AddCall → LogState → LogState
  | [], s => s
  | a :: rest, s => Log.runAddsLimited maxEvents rest (Log.addLimited maxEvents a s)

/-! Helper lemmas. -/

/-- A known rank pins the level name to one of the five keys. -/
theorem levelRank_cases (L : String) (r : Nat) (h : levelRank L = some r) :
    (L = "DEBUG" ∧ r = 0) ∨ (L = "INFO" ∧ r = 1) ∨ (L = "WARN" ∧ r = 2) ∨
    (L = "ERROR" ∧ r = 3) ∨ (L = "DISABLE" ∧ r = 4) := by
  by_cases h0 : L = "DEBUG"
  · subst h0
    rw [show levelRank "DEBUG" = some 0 from by decide] at h
    exact Or.inl ⟨rfl, (Option.some.inj h).symm⟩
  by_cases h1 : L = "INFO"
  · subst h1
    rw [show levelRank "INFO" = some 1 from by decide] at h
    exact Or.inr (Or.inl ⟨rfl, (Option.some.inj h).symm⟩)
  by_cases h2 : L = "WARN"
  · subst h2
    rw [show levelRank "WARN" = some 2 from by decide] at h
    exact Or.inr (Or.inr (Or.inl ⟨rfl, (Option.some.inj h).symm⟩))
  by_cases h3 : L = "ERROR"
  · subst h3
    rw [show levelRank "ERROR" = some 3 from by decide] at h
    exact Or.inr (Or.inr (Or.inr (Or.inl ⟨rfl, (Option.some.inj h).symm⟩)))
  by_cases h4 : L = "DISABLE"
  · subst h4
    rw [show levelRank "DISABLE" = some 4 from by decide] at h
    exact Or.inr (Or.inr (Or.inr (Or.inr ⟨rfl, (Option.some.inj h).symm⟩)))
  exfalso
  have e0 : ("DEBUG" == L) = false := beq_eq_false_iff_ne.mpr (fun hh => h0 hh.symm)
  have e1 : ("INFO" == L) = false := beq_eq_false_iff_ne.mpr (fun hh => h1 hh.symm)
  have e2 : ("WARN" == L) = false := beq_eq_false_iff_ne.mpr (fun hh => h2 hh.symm)
  have e3 : ("ERROR" == L) = false := beq_eq_false_iff_ne.mpr (fun hh => h3 hh.symm)
  have e4 : ("DISABLE" == L) = false := beq_eq_false_iff_ne.mpr (fun hh => h4 hh.symm)
  simp [levelRank, LEVELS, List.find?, e0, e1, e2, e3, e4] at h

/-! Claims C2, C3, C4, C6, C9. -/

/-- C2, counterexample: after registering the same callback for DEBUG and then
for WARN (one merged subscription covering both levels),
`removeEventListeners(["DEBUG","WARN"], cb)` takes the exact-match branch and
returns 1, not 2 as the claim states. -/
theorem claim_C2_counterexample :
    (Log.addEventListener ["WARN"] 0 none false
        (Log.addEventListener ["DEBUG"] 0 none false []) =
      [{ levels := ["DEBUG", "WARN"], listener := 0, owner := none, single := false }]) ∧
    (Log.removeEventListeners ["DEBUG", "WARN"] 0 none
        (Log.addEventListener ["WARN"] 0 none false
          (Log.addEventListener ["DEBUG"] 0 none false []))).2 ≠ 2 := by
  decide

/-- C2, amended: registering the same callback for DEBUG and then for WARN
yields one merged subscription covering both levels, and
`removeEventListeners(["DEBUG","WARN"], cb)` removes that whole subscription
and returns 1 — the exact level-set match counts one per removed subscription;
per-pair counting applies only when the level sets differ. -/
theorem claim_C2 (cb : Nat) :
    (Log.addEventListener ["WARN"] cb none false
        (Log.addEventListener ["DEBUG"] cb none false []) =
      [{ levels := ["DEBUG", "WARN"], listener := cb, owner := none, single := false }]) ∧
    (Log.removeEventListeners ["DEBUG", "WARN"] cb none
        (Log.addEventListener ["WARN"] cb none false
          (Log.addEventListener ["DEBUG"] cb none false []))) = ([], 1) := by
  have hm : (["DEBUG"] : List String).contains "WARN" = false := by decide
  have h1 : Log.addEventListener ["WARN"] cb none false
      (Log.addEventListener ["DEBUG"] cb none false []) =
      [{ levels := ["DEBUG", "WARN"], listener := cb, owner := none, single := false }] := by
    simp [Log.addEventListener, mergeLevels, hm]
  refine ⟨h1, ?_⟩
  rw [h1]
  have ha : (["DEBUG", "WARN"] : List String).all
      (fun l => (["DEBUG", "WARN"] : List String).contains l) = true := by decide
  simp [Log.removeEventListeners, ha]

/-- C3: the handler installed by `registerWorker` does not dispatch on the
`action` field — the source condition is a comma expression equal to the
truthiness of `data.scope` — so a `terminate` message that carries a scope
field is forwarded into `add()` instead of detaching the handler. -/
theorem claim_C3 :
    (Log.messageHandler
        { action := "terminate", level := none, message := none,
          scope := some "worker", extra := none } = HandlerAction.forwardToAdd) ∧
    (Log.messageHandler
        { action := "terminate", level := none, message := none,
          scope := some "worker", extra := none } ≠ HandlerAction.detach) ∧
    (Log.messageHandler
        { action := "log", level := some "INFO", message := some (LogMessage.str "m"),
          scope := some "", extra := none } ≠ HandlerAction.forwardToAdd) := by
  decide

/-- C4: `setPrintThreshold` rejects an unrecognized name with one warn
diagnostic and leaves the state unchanged, and a recognized name sets the
threshold to its rank — but the broadcast reaches no worker registered through
`registerWorker`, because `registerWorker` never adds the handle to
`Log.workers`: after registering worker 0, `setPrintThreshold("WARN")` posts no
message at all. -/
theorem claim_C4 :
    ((Log.registerWorker 0 Log.initialWorld).attachedHandlers = [0]) ∧
    ((Log.setPrintThreshold "WARN" (Log.registerWorker 0 Log.initialWorld).log).1.printThreshold = 2) ∧
    ((Log.setPrintThreshold "WARN" (Log.registerWorker 0 Log.initialWorld).log).2.1 = []) ∧
    ((Log.setPrintThreshold "FOOBAR" (Log.registerWorker 0 Log.initialWorld).log).1 =
      (Log.registerWorker 0 Log.initialWorld).log) ∧
    ((Log.setPrintThreshold "FOOBAR" (Log.registerWorker 0 Log.initialWorld).log).2.2 =
      [ConsoleChannel.warn]) := by
  decide

/-- C6: adding with `DISABLE` or any unrecognized level name is a total no-op
apart from exactly one warn-level console diagnostic: the state (events,
previous timestamp, listeners, threshold, workers) is unchanged, no broadcast
is made and no listener is invoked. -/
theorem claim_C6 (L : String) (m : LogMessage) (sc : String) (ex : Option String)
    (now : Int) (st : LogState) (h : isValidAddLevel L = false) :
    Log.add L m sc ex now st =
      { state := st, console := [ConsoleChannel.warn], broadcasts := [], calls := [] } := by
  simp [Log.add, h]

/-- C6 witness: the theorem applied at `DISABLE` on the initial state. -/
theorem claim_C6_witness :
    isValidAddLevel "DISABLE" = false ∧
    Log.add "DISABLE" (LogMessage.str "m") "s" none 3 Log.initial =
      { state := Log.initial, console := [ConsoleChannel.warn],
        broadcasts := [], calls := [] } :=
  ⟨by decide, claim_C6 "DISABLE" (LogMessage.str "m") "s" none 3 Log.initial (by decide)⟩

/-- C9: re-registering an already-registered callback merges only the missing
levels into the first subscription with that callback and leaves its owner tag
and single flag untouched; the arguments `owner` and `singleEvent` of the call
are ignored and no second subscription entry is created. -/
theorem claim_C9 (lvls : List String) (cb : Nat) (o2 : Option String) (b2 : Bool)
    (pre post : List Subscription) (sub : Subscription)
    (hpre : ∀ q ∈ pre, q.listener ≠ cb) (hsub : sub.listener = cb) :
    Log.addEventListener lvls cb o2 b2 (pre ++ sub :: post) =
      pre ++ { sub with levels := mergeLevels sub.levels lvls } :: post := by
  induction pre with
  | nil => simp [Log.addEventListener, hsub]
  | cons q rest ih =>
    have hq : (q.listener == cb) = false :=
      beq_eq_false_iff_ne.mpr (hpre q (by simp))
    simp only [List.cons_append, Log.addEventListener, hq, Bool.false_eq_true,
      if_false, List.cons.injEq, true_and]
    exact ih (fun x hx => hpre x (by simp [hx]))

/-- A sample unrelated subscription, used in witnesses. -/
def subA : Subscription :=
  { levels := ["ERROR"], listener := 7, owner := some "a", single := true }

/-- A sample subscription owned by callback 3, used in witnesses. -/
def subB : Subscription :=
  { levels := ["DEBUG"], listener := 3, owner := some "own", single := false }

/-- C9 witness: the theorem applied to a registry holding an unrelated
subscription followed by the one owned by callback 3. -/
theorem claim_C9_witness :
    (∀ q ∈ [subA], q.listener ≠ 3) ∧ subB.listener = 3 ∧
    Log.addEventListener ["DEBUG", "WARN"] 3 (some "other") true ([subA] ++ subB :: []) =
      [subA] ++ { subB with levels := mergeLevels subB.levels ["DEBUG", "WARN"] } :: [] :=
  ⟨by decide, by decide,
    claim_C9 ["DEBUG", "WARN"] 3 (some "other") true _ _ _ (by decide) (by decide)⟩

/-! Claims C5, C7, C10. -/

/-- The broadcasts collected by `clearFold` are exactly one `__clear`
notification per processed level entry, in order, whatever the listener list. -/
theorem clearFold_broadcasts (now : Int) (prev : Option Int)
    (ps : List (String × Nat)) (subs : List Subscription) :
    (clearFold now prev ps subs).2.map (fun b => (b.1, b.2.message)) =
      ps.map (fun p => (p.1, LogMessage.str "__clear")) := by
  induction ps generalizing subs with
  | nil => rfl
  | cons p rest ih => simp [clearFold, ih]

/-- C5: for a valid level, `removeScopeEventsAtLevel` fires exactly one
synthetic `__clear` notification for that level, `removeScopeEventsBelowLevel`
fires exactly one per level of strictly lower rank, and the unscoped
`removeEventsAtLevel` and `removeEventsBelowLevel` fire none. -/
theorem claim_C5 (L : String) (r : Nat) (scope : String) (now : Int) (st : LogState)
    (hv : isValidAddLevel L = true) (hr : levelRank L = some r) :
    ((Log.removeScopeEventsAtLevel scope L now st).2.1.map (fun b => (b.1, b.2.message)) =
      [(L, LogMessage.str "__clear")]) ∧
    ((Log.removeScopeEventsBelowLevel scope L now st).2.1.map (fun b => (b.1, b.2.message)) =
      (LEVELS.filter (fun p => decide (p.2 < r))).map
        (fun p => (p.1, LogMessage.str "__clear"))) ∧
    ((Log.removeEventsAtLevel L st).2.1 = []) ∧
    ((Log.removeEventsBelowLevel L st).2.1 = []) := by
  refine ⟨?_, ?_, ?_, ?_⟩ <;>
    simp [Log.removeScopeEventsAtLevel, Log.removeScopeEventsBelowLevel,
      Log.removeEventsAtLevel, Log.removeEventsBelowLevel, hv, hr,
      clearFold_broadcasts]

/-- C5 witness: the theorem applied at level WARN on the initial state. -/
theorem claim_C5_witness :
    isValidAddLevel "WARN" = true ∧ levelRank "WARN" = some 2 ∧
    (((Log.removeScopeEventsAtLevel "s" "WARN" 3 Log.initial).2.1.map
        (fun b => (b.1, b.2.message)) = [("WARN", LogMessage.str "__clear")]) ∧
    ((Log.removeScopeEventsBelowLevel "s" "WARN" 3 Log.initial).2.1.map
        (fun b => (b.1, b.2.message)) =
      (LEVELS.filter (fun p => decide (p.2 < 2))).map
        (fun p => (p.1, LogMessage.str "__clear"))) ∧
    ((Log.removeEventsAtLevel "WARN" Log.initial).2.1 = []) ∧
    ((Log.removeEventsBelowLevel "WARN" Log.initial).2.1 = [])) :=
  ⟨by decide, by decide, claim_C5 "WARN" 2 "s" 3 Log.initial (by decide) (by decide)⟩

/-- C7: for a valid level of rank `r`, `add` writes to the console exactly when
`r` is at least the current threshold, on the channel matching the level, and
the default threshold is INFO (rank 1). -/
theorem claim_C7 (L : String) (r : Nat) (m : LogMessage) (sc : String)
    (ex : Option String) (now : Int) (st : LogState)
    (hr : levelRank L = some r) (hd : L ≠ "DISABLE") :
    ((Log.add L m sc ex now st).console =
      if st.printThreshold ≤ r then
        [if r == 0 then ConsoleChannel.debug
         else if r == 1 then ConsoleChannel.info
         else if r == 2 then ConsoleChannel.warn
         else ConsoleChannel.error]
      else []) ∧
    Log.initial.printThreshold = 1 := by
  refine ⟨?_, rfl⟩
  rcases levelRank_cases L r hr with h5 | h5 | h5 | h5 | h5 <;> obtain ⟨hL, hr0⟩ := h5
  · subst hL; subst hr0
    simp [Log.add, Log.print,
      show isValidAddLevel "DEBUG" = true from by decide,
      show levelRank "DEBUG" = some 0 from by decide]
  · subst hL; subst hr0
    simp [Log.add, Log.print,
      show isValidAddLevel "INFO" = true from by decide,
      show levelRank "INFO" = some 1 from by decide]
  · subst hL; subst hr0
    simp [Log.add, Log.print,
      show isValidAddLevel "WARN" = true from by decide,
      show levelRank "WARN" = some 2 from by decide]
  · subst hL; subst hr0
    simp [Log.add, Log.print,
      show isValidAddLevel "ERROR" = true from by decide,
      show levelRank "ERROR" = some 3 from by decide]
  · exact absurd hL hd

/-- C7 witness: the theorem applied at level ERROR on the initial state. -/
theorem claim_C7_witness :
    levelRank "ERROR" = some 3 ∧ "ERROR" ≠ "DISABLE" ∧
    (((Log.add "ERROR" (LogMessage.str "m") "s" none 4 Log.initial).console =
      if Log.initial.printThreshold ≤ 3 then
        [if 3 == 0 then ConsoleChannel.debug
         else if 3 == 1 then ConsoleChannel.info
         else if 3 == 2 then ConsoleChannel.warn
         else ConsoleChannel.error]
      else []) ∧
    Log.initial.printThreshold = 1) :=
  ⟨by decide, by decide,
    claim_C7 "ERROR" 3 (LogMessage.str "m") "s" none 4 Log.initial (by decide) (by decide)⟩

/-- C10: `clear()` empties the event list but leaves `_prevTimestamp` as set by
the preceding successful add; the first event added after the clear therefore
carries delta `some (t2 - t1)`, not `none` (for a real wall clock, `t1` is a
positive epoch-millisecond value, so the JS truthiness test on the stored
timestamp passes). -/
theorem claim_C10 (L1 L2 : String) (m1 m2 : LogMessage) (sc1 sc2 : String)
    (ex1 ex2 : Option String) (t1 t2 nowc : Int) (st0 : LogState)
    (hv1 : isValidAddLevel L1 = true) (hv2 : isValidAddLevel L2 = true)
    (ht : t1 ≠ 0) :
    ((Log.clear nowc (Log.add L1 m1 sc1 ex1 t1 st0).state).1.events = []) ∧
    ((Log.clear nowc (Log.add L1 m1 sc1 ex1 t1 st0).state).1.prevTimestamp =
      (Log.add L1 m1 sc1 ex1 t1 st0).state.prevTimestamp) ∧
    ((Log.add L1 m1 sc1 ex1 t1 st0).state.prevTimestamp = some t1) ∧
    ((Log.add L2 m2 sc2 ex2 t2
        (Log.clear nowc (Log.add L1 m1 sc1 ex1 t1 st0).state).1).state.events.map
      (fun e => e.delta) = [some (t2 - t1)]) := by
  refine ⟨?_, ?_, ?_, ?_⟩ <;>
    simp [Log.clear, Log.add, hv1, hv2, mkDelta, ht]

/-- C10 witness: the theorem applied to an INFO add at time 5, a clear at time
6, and a WARN add at time 9, yielding delta 4. -/
theorem claim_C10_witness :
    isValidAddLevel "INFO" = true ∧ isValidAddLevel "WARN" = true ∧ ((5 : Int) ≠ 0) ∧
    (((Log.clear 6 (Log.add "INFO" (LogMessage.str "a") "s" none 5 Log.initial).state).1.events = []) ∧
    ((Log.clear 6 (Log.add "INFO" (LogMessage.str "a") "s" none 5 Log.initial).state).1.prevTimestamp =
      (Log.add "INFO" (LogMessage.str "a") "s" none 5 Log.initial).state.prevTimestamp) ∧
    ((Log.add "INFO" (LogMessage.str "a") "s" none 5 Log.initial).state.prevTimestamp = some 5) ∧
    ((Log.add "WARN" (LogMessage.str "b") "t" none 9
        (Log.clear 6 (Log.add "INFO" (LogMessage.str "a") "s" none 5 Log.initial).state).1).state.events.map
      (fun e => e.delta) = [some (9 - 5)])) :=
  ⟨by decide, by decide, by decide,
    claim_C10 "INFO" "WARN" (LogMessage.str "a") (LogMessage.str "b") "s" "t"
      none none 5 9 6 Log.initial (by decide) (by decide) (by decide)⟩

/-! Claims C1 and C8: lemmas about repeated adds and the eviction bound. -/

/-- Eviction keeps the suffix of length at most the bound. -/
theorem evictOldest_eq_drop (k : Nat) (l : List LogEvent) :
    evictOldest (some k) l = l.drop (l.length - k) := by
  simp only [evictOldest]
  split
  · rfl
  · next h =>
    rw [show l.length - k = 0 by omega, List.drop_zero]

/-- Eviction is idempotent. -/
theorem evictOldest_idem (k : Nat) (l : List LogEvent) :
    evictOldest (some k) (evictOldest (some k) l) = evictOldest (some k) l := by
  rw [evictOldest_eq_drop, evictOldest_eq_drop, List.length_drop]
  rw [show l.length - (l.length - k) - k = 0 by omega, List.drop_zero]

/-- Evicting after appending one element commutes with having evicted before. -/
theorem evictOldest_append_one (k : Nat) (l : List LogEvent) (x : LogEvent) :
    evictOldest (some k) (evictOldest (some k) l ++ [x]) =
      evictOldest (some k) (l ++ [x]) := by
  rw [evictOldest_eq_drop, evictOldest_eq_drop, evictOldest_eq_drop]
  rw [List.length_append, List.length_drop, List.length_append]
  rw [List.drop_append_eq_append_drop, List.drop_append_eq_append_drop, List.drop_drop]
  rw [List.length_drop]
  congr 2
  · omega
  · omega

/-- A run of valid adds grows the event list by exactly one per call. -/
theorem runAdds_events_length (adds : List AddCall) (s : LogState)
    (hv : ∀ a ∈ adds, isValidAddLevel a.level = true) :
    (Log.runAdds adds s).events.length = s.events.length + adds.length := by
  induction adds generalizing s with
  | nil => simp [Log.runAdds]
  | cons a rest ih =>
    have hva : isValidAddLevel a.level = true := hv a (by simp)
    simp only [Log.runAdds]
    rw [ih _ (fun x hx => hv x (by simp [hx]))]
    simp [Log.add, hva]
    omega

/-- A run of valid adds appends, in call order, one event per call whose level
is the call's rank and whose message, scope and time are the call's. -/
theorem runAdds_events_map (adds : List AddCall) (s : LogState)
    (hv : ∀ a ∈ adds, isValidAddLevel a.level = true) :
    (Log.runAdds adds s).events.map (fun e => (e.level, e.message, e.scope, e.time)) =
      s.events.map (fun e => (e.level, e.message, e.scope, e.time)) ++
        adds.map (fun a => ((levelRank a.level).getD 0, a.message, a.scope, a.time)) := by
  induction adds generalizing s with
  | nil => simp [Log.runAdds]
  | cons a rest ih =>
    have hva : isValidAddLevel a.level = true := hv a (by simp)
    simp only [Log.runAdds]
    rw [ih _ (fun x hx => hv x (by simp [hx]))]
    simp [Log.add, hva]

/-- The limited run simulates the unlimited run: starting from an evicted event
list, it reaches exactly the unlimited run's state with its event list evicted.
All other fields evolve identically because `add` never reads the event list. -/
theorem runAddsLimited_simulates (k : Nat) (adds : List AddCall) (s : LogState) :
    Log.runAddsLimited (some k) adds { s with events := evictOldest (some k) s.events } =
      { Log.runAdds adds s with
          events := evictOldest (some k) (Log.runAdds adds s).events } := by
  induction adds generalizing s with
  | nil => simp [Log.runAddsLimited, Log.runAdds]
  | cons a rest ih =>
    simp only [Log.runAddsLimited, Log.runAdds]
    have key : Log.addLimited (some k) a { s with events := evictOldest (some k) s.events } =
        { (Log.add a.level a.message a.scope a.extra a.time s).state with
            events := evictOldest (some k)
              (Log.add a.level a.message a.scope a.extra a.time s).state.events } := by
      by_cases hva : isValidAddLevel a.level
      · simp [Log.addLimited, Log.add, hva, evictOldest_append_one]
      · simp [Log.addLimited, Log.add, hva, evictOldest_idem]
    rw [key, ih]

/-- C1: starting from an empty store with `maxEvents = 5` (modelled from the
spec, see `evictOldest`), any 7 adds with valid levels leave exactly 5 stored
events, namely the last 5 of the 7 that an unbounded run would store — the 2
oldest are evicted first, regardless of the events' scopes. -/
theorem claim_C1 (adds : List AddCall) (s0 : LogState)
    (h0 : s0.events = []) (hlen : adds.length = 7)
    (hv : ∀ a ∈ adds, isValidAddLevel a.level = true) :
    ((Log.runAddsLimited (some 5) adds s0).events.length = 5) ∧
    ((Log.runAdds adds s0).events.length = 7) ∧
    ((Log.runAddsLimited (some 5) adds s0).events = (Log.runAdds adds s0).events.drop 2) := by
  have hsim := runAddsLimited_simulates 5 adds s0
  have hs0 : ({ s0 with events := evictOldest (some 5) s0.events } : LogState) = s0 := by
    obtain ⟨sl, se, sp, spt, sw⟩ := s0
    simp only at h0
    subst h0
    rfl
  rw [hs0] at hsim
  have hlen2 : (Log.runAdds adds s0).events.length = 7 := by
    rw [runAdds_events_length adds s0 hv, h0, hlen]
    simp
  refine ⟨?_, hlen2, ?_⟩
  · rw [hsim]
    simp only [evictOldest_eq_drop, List.length_drop, hlen2]
  · rw [hsim, evictOldest_eq_drop, hlen2]

/-- Seven sample add calls across two scopes, used as the C1 witness input. -/
def adds7 : List AddCall :=
  [{ level := "DEBUG", message := LogMessage.str "a", scope := "Test limit", extra := none, time := 1 },
   { level := "INFO", message := LogMessage.str "b", scope := "Test limit", extra := none, time := 2 },
   { level := "WARN", message := LogMessage.str "c", scope := "Test limit", extra := none, time := 3 },
   { level := "ERROR", message := LogMessage.str "d", scope := "Test limit", extra := none, time := 4 },
   { level := "DEBUG", message := LogMessage.str "e", scope := "Test limit", extra := none, time := 5 },
   { level := "DEBUG", message := LogMessage.str "f", scope := "Test exceed", extra := none, time := 6 },
   { level := "DEBUG", message := LogMessage.str "g", scope := "Test exceed", extra := none, time := 7 }]

/-- C1 witness: the theorem applied to the seven sample adds from the initial
state. -/
theorem claim_C1_witness :
    Log.initial.events = [] ∧ adds7.length = 7 ∧
    (∀ a ∈ adds7, isValidAddLevel a.level = true) ∧
    (((Log.runAddsLimited (some 5) adds7 Log.initial).events.length = 5) ∧
    ((Log.runAdds adds7 Log.initial).events.length = 7) ∧
    ((Log.runAddsLimited (some 5) adds7 Log.initial).events =
      (Log.runAdds adds7 Log.initial).events.drop 2)) :=
  ⟨by decide, by decide, by decide,
    claim_C1 adds7 Log.initial (by decide) (by decide) (by decide)⟩

/-- C8: running any valid adds from the initial state, the export round-trip
yields exactly one plain record per add, in insertion order, whose level is the
add's numeric rank and whose message, scope and time are the add's; exporting
with a level filter yields exactly the records whose level equals that level's
rank, in store order. -/
theorem claim_C8 (adds : List AddCall) (L : String)
    (hv : ∀ a ∈ adds, isValidAddLevel a.level = true) :
    ((Log.exportToJson none (Log.runAdds adds Log.initial)).map
        (fun p => (p.level, p.message, p.scope, p.time)) =
      adds.map (fun a => ((levelRank a.level).getD 0, a.message, a.scope, a.time))) ∧
    ((Log.exportToJson none (Log.runAdds adds Log.initial)).length = adds.length) ∧
    (Log.exportToJson (some L) (Log.runAdds adds Log.initial) =
      (Log.exportToJson none (Log.runAdds adds Log.initial)).filter
        (fun p => levelRank L == some p.level)) := by
  refine ⟨?_, ?_, ?_⟩
  · have h := runAdds_events_map adds Log.initial hv
    simp only [Log.initial, List.map_nil, List.nil_append] at h
    simpa [Log.exportToJson, List.map_map, Function.comp, toPlain] using h
  · have h := runAdds_events_length adds Log.initial hv
    simp only [Log.initial, List.length_nil, Nat.zero_add] at h
    simpa [Log.exportToJson] using h
  · have hq : ((fun p => levelRank L == some p.level) ∘ toPlain) =
        (fun e : LogEvent => levelRank L == some e.level) := by
      funext e
      rfl
    simp [Log.exportToJson, Log.getAllEventsAtLevel, List.filter_map, hq]

/-- Two sample add calls, used as the C8 witness input. -/
def adds2 : List AddCall :=
  [{ level := "DEBUG", message := LogMessage.str "x", scope := "s1", extra := none, time := 1 },
   { level := "INFO", message := LogMessage.str "y", scope := "s2", extra := none, time := 2 }]

/-- C8 witness: the theorem applied to the two sample adds and the INFO filter. -/
theorem claim_C8_witness :
    (∀ a ∈ adds2, isValidAddLevel a.level = true) ∧
    (((Log.exportToJson none (Log.runAdds adds2 Log.initial)).map
        (fun p => (p.level, p.message, p.scope, p.time)) =
      adds2.map (fun a => ((levelRank a.level).getD 0, a.message, a.scope, a.time))) ∧
    ((Log.exportToJson none (Log.runAdds adds2 Log.initial)).length = adds2.length) ∧
    (Log.exportToJson (some "INFO") (Log.runAdds adds2 Log.initial) =
      (Log.exportToJson none (Log.runAdds adds2 Log.initial)).filter
        (fun p => levelRank "INFO" == some p.level))) :=
  ⟨by decide, claim_C8 adds2 "INFO" (by decide)⟩

end ScopedEventLog
